import Mathlib

/-!
Verification of the Linux accessibility snapshot & query engine
(`computer_server/handlers/linuxtry.py`): the `LinuxUIElement` tree model,
the AT-SPI tree builder with per-attribute and per-subtree fault isolation,
the `wmctrl` fallback lister, and the query operations `get_windows`,
`find_window_by_title`, `find_window_by_role`, `find_window_by_value`.

The Python backend (pyatspi) is modelled as an explicit environment: every
backend call that may raise an exception is represented by an `Option`/
`Except`/sum value stating whether the call raises and, if not, what it
returns.  The handler functions themselves are translated statement by
statement from the source.
-/

namespace LinuxTry

/-! ### Python string primitives used by the source -/

/-- Python whitespace (the characters `str.split(None)` and `str.strip()`
treat as separators, restricted to ASCII). -/
def isPySpace (c : Char) : Bool :=
  c = ' ' || c = '\t' || c = '\n' || c = '\r' || c = '\x0b' || c = '\x0c'

/-- Python `str.lower()` (ASCII case folding). -/
def pyLower (s : String) : String :=
  String.mk (s.data.map Char.toLower)

/-- Python `str.strip()`: drop leading and trailing whitespace. -/
def pyStrip (s : String) : String :=
  String.mk (((s.data.dropWhile isPySpace).reverse.dropWhile isPySpace).reverse)

/-- Test whether `needle` occurs at the start of `hay`. -/
def isPrefixOfL : List Char → List Char → Bool
  | [], _ => true
  | _ :: _, [] => false
  | a :: as, b :: bs => a = b && isPrefixOfL as bs

/-- Test whether `needle` occurs somewhere in `hay` (Python `needle in hay`
on strings). -/
def isSubstringL (n : List Char) : List Char → Bool
  | [] => n.isEmpty
  | c :: rest => isPrefixOfL n (c :: rest) || isSubstringL n rest

/-- Python `needle in hay` for strings: substring containment. -/
def isSubstring (n h : String) : Bool := isSubstringL n.data h.data

/-- Worker for `str.split(None, maxsplit)`: skip whitespace, then either
emit the remainder verbatim (when out of splits) or emit one field and
recurse. -/
def splitGo (fuel : Nat) (cs : List Char) : List String :=
  let cs2 := cs.dropWhile isPySpace
  if cs2.isEmpty then []
  else
    match fuel with
    | 0 => [String.mk cs2]
    | n + 1 =>
        String.mk (cs2.takeWhile (fun c => !isPySpace c)) ::
          splitGo n (cs2.dropWhile (fun c => !isPySpace c))

/-- Python `line.split(None, 3)`: at most three splits, so at most four
parts; the fourth part is the remainder of the line (trailing whitespace
kept, leading whitespace skipped). -/
def pySplitWs3 (s : String) : List String := splitGo 3 s.data

/-- Worker for `str.splitlines()` over the terminators `\n`, `\r`, `\r\n`;
no trailing empty line is produced. -/
def splitlinesAux : List Char → List Char → List String
  | [], acc => if acc.isEmpty then [] else [String.mk acc.reverse]
  | '\r' :: '\n' :: rest, acc => String.mk acc.reverse :: splitlinesAux rest []
  | '\r' :: rest, acc => String.mk acc.reverse :: splitlinesAux rest []
  | '\n' :: rest, acc => String.mk acc.reverse :: splitlinesAux rest []
  | c :: rest, acc => splitlinesAux rest (c :: acc)

/-- Python `str.splitlines()`. -/
def pySplitlines (s : String) : List String := splitlinesAux s.data []

/-! ### Backend model: one AT-SPI accessible object

Each field records the outcome of one backend call performed by
`LinuxUIElement.__init__`.  pyatspi calls either return a value or raise;
the `falsy` constructors additionally model the source's truthiness tests
`if text_iface:` / `if val_iface:` / `if comp:` on the returned interface
object. -/

/-- Outcome of `accessible.queryText()` followed by `getText(0, -1)`:
the query raises, the interface tests falsy, `getText` raises, or the
text is read. -/
inductive TextQ where
  | qraise
  | falsy
  | getRaise
  | ok (s : String)
deriving DecidableEq, Repr

/-- Outcome of `accessible.queryValue()` followed by reading
`currentValue`: the query raises, the interface tests falsy, the
`currentValue` read raises, or `str(currentValue)` is obtained. -/
inductive ValQ where
  | qraise
  | falsy
  | curRaise
  | ok (s : String)
deriving DecidableEq, Repr

/-- Outcome of `accessible.queryComponent()` followed by
`getPosition(XY_SCREEN)` and `getSize()`: the query raises, the interface
tests falsy, `getPosition` raises, `getPosition` succeeds with `(x, y)`
but `getSize` raises, or both reads succeed. -/
inductive CompQ where
  | qraise
  | falsy
  | posRaise
  | sizeRaise (x y : Int)
  | ok (x y w h : Int)
deriving DecidableEq, Repr

/-- The attribute-read outcomes of one accessible object:
`getRoleName()` (`none` = raises), the `name` property (`none` = raises,
`some none` = Python `None`), and the three interface probes. -/
structure AttrReads where
  roleName : Option String
  name : Option (Option String)
  textQ : TextQ
  valQ : ValQ
  compQ : CompQ
deriving DecidableEq, Repr

/-- A backend accessible object: its attribute-read outcomes, whether
`LinuxUIElement(·)` construction raises on it (`broken`), the children its
iterator yields before either finishing or raising (`kids`), and whether
the iteration raises after that prefix (`iterRaises`). -/
inductive Accessible where
  | mk : AttrReads → Bool → List Accessible → Bool → Accessible

def Accessible.attrs : Accessible → AttrReads
  | .mk a _ _ _ => a

def Accessible.broken : Accessible → Bool
  | .mk _ b _ _ => b

def Accessible.kids : Accessible → List Accessible
  | .mk _ _ k _ => k

def Accessible.iterRaises : Accessible → Bool
  | .mk _ _ _ r => r

/-! ### The UIElement tree (`LinuxUIElement` / its `to_dict` shape) -/

/-- One node of the captured tree: `role`, `title`, `value`, bounding box
`x y width height`, and the ordered `children`. -/
inductive UIElement where
  | mk : String → String → String → Int → Int → Int → Int → List UIElement → UIElement

def UIElement.role : UIElement → String
  | .mk r _ _ _ _ _ _ _ => r

def UIElement.title : UIElement → String
  | .mk _ t _ _ _ _ _ _ => t

def UIElement.value : UIElement → String
  | .mk _ _ v _ _ _ _ _ => v

def UIElement.x : UIElement → Int
  | .mk _ _ _ a _ _ _ _ => a

def UIElement.y : UIElement → Int
  | .mk _ _ _ _ b _ _ _ => b

def UIElement.width : UIElement → Int
  | .mk _ _ _ _ _ w _ _ => w

def UIElement.height : UIElement → Int
  | .mk _ _ _ _ _ _ h _ => h

def UIElement.children : UIElement → List UIElement
  | .mk _ _ _ _ _ _ _ c => c

/-! ### The four attribute reads of `LinuxUIElement.__init__`

Each `try` block of the constructor becomes one function of exactly the
backend outcomes that block consults. -/

/-- Python `try: self.role = accessible.getRoleName() except: self.role = ''`. -/
def roleOf : Option String → String
  | none => ""
  | some r => r

/-- Python `try: self.title = accessible.name or '' except: self.title = ''`. -/
def titleOf : Option (Option String) → String
  | none => ""
  | some none => ""
  | some (some s) => s

/-- The value block: text interface first (`getText(0, -1) or ''`); if the
text probe raises, the value interface (`str(currentValue)`); if that also
raises, fall back to the already-computed title.  A probe that succeeds
with a falsy interface skips the assignment, leaving the initial `''`. -/
def valueOf (t : TextQ) (v : ValQ) (title : String) : String :=
  match t with
  | .ok s => s
  | .falsy => ""
  | .qraise | .getRaise =>
      match v with
      | .ok s => s
      | .falsy => ""
      | .qraise | .curRaise => title

/-- The geometry block: `x, y` are assigned by `getPosition` before
`getSize` runs, so a `getSize` failure keeps the already-assigned
position while `width, height` stay `0`; any earlier failure leaves all
four at `0`. -/
def geomOf : CompQ → Int × Int × Int × Int
  | .qraise | .falsy | .posRaise => (0, 0, 0, 0)
  | .sizeRaise px py => (px, py, 0, 0)
  | .ok px py w h => (px, py, w, h)

/-! ### Element construction (`LinuxUIElement(accessible)`)

`buildElem` returns `none` when construction raises (the `broken` flag of
the backend object); the children loop wraps each child's construction in
its own `try/except: continue`, so failed children are skipped; a failure
of the iteration itself (`iterRaises`) is caught by the outer
`except: pass` and leaves the children gathered so far. -/

mutual

def buildElem : Accessible → Option UIElement
  | .mk reads broken kids _iterRaises =>
      if broken then none
      else
        some (UIElement.mk (roleOf reads.roleName) (titleOf reads.name)
          (valueOf reads.textQ reads.valQ (titleOf reads.name))
          (geomOf reads.compQ).1 (geomOf reads.compQ).2.1
          (geomOf reads.compQ).2.2.1 (geomOf reads.compQ).2.2.2
          (buildChildren kids))

def buildChildren : List Accessible → List UIElement
  | [] => []
  | c :: rest =>
      match buildElem c with
      | some e => e :: buildChildren rest
      | none => buildChildren rest

end

/-! ### `LinuxUIElement.contains_value` -/

mutual

/-- Python `contains_value(self, search_value)`: `False` for `None`; otherwise the
node's own `value` then `title` are tested (truthiness guard, then
case-insensitive substring), and then the children in order. -/
def contains_value : UIElement → Option String → Bool
  | _, none => false
  | .mk _ title value _ _ _ _ children, some v =>
      (value != "" && isSubstring (pyLower v) (pyLower value)) ||
      (title != "" && isSubstring (pyLower v) (pyLower title)) ||
      anyContains children (some v)

def anyContains : List UIElement → Option String → Bool
  | [], _ => false
  | c :: rest, v => contains_value c v || anyContains rest v

end

/-! ### Backend model: the desktop walk of `get_windows` /
`find_window_by_value`

The walk reads `desktop.childCount`, `desktop.getChildAtIndex(i)`,
`app.childCount`, `app.getChildAtIndex(j)`; none of these reads is inside
an inner `try`, so any of them raising aborts the whole operation.  The
model lists each application slot (the outcome of `getChildAtIndex(i)`,
`.error msg` when it raises) and, per application, whether its
`childCount` read raises and each top-level child slot. -/

/-- One application under the desktop: the outcome of `app.childCount`
(`some msg` = raises with message `msg`) and the outcomes of
`app.getChildAtIndex(j)` for `j` below the child count. -/
structure AppNode where
  childCountE : Option String
  kids : List (Except String Accessible)

/-- The desktop root: outcome of `desktop.childCount` and the outcomes of
`desktop.getChildAtIndex(i)`. -/
structure DesktopNode where
  childCountE : Option String
  apps : List (Except String AppNode)

/-- One capture environment: the outcome of
`pyatspi.Registry.getDesktop(0)` and the outcome of
`subprocess.check_output(['wmctrl', '-l'])` (`none` = the command is
unavailable or exits with failure, i.e. `check_output` raises;
`some out` = its standard output). -/
structure Env where
  getDesktop : Except String DesktopNode
  wmctrl : Option String

/-- Whether an `Except` result is a success. -/
def resultOk : {α : Type} → Except String α → Bool
  | _, .ok _ => true
  | _, .error _ => false

/-- Python `try: role = window.getRoleName().lower() except: role = ''`
(the per-window guarded role read in both walks). -/
def roleLowerOf (w : Accessible) : String :=
  match w.attrs.roleName with
  | some r => pyLower r
  | none => ""

/-- Python `role in ("frame", "window", "dialog")`. -/
def isWindowRole (r : String) : Bool :=
  r = "frame" || r = "window" || r = "dialog"

/-- The body of the inner loop of `get_windows`: keep the child only when
its lowered role is window-like, and skip it (`except: continue`) when its
construction raises. -/
def processWindow (w : Accessible) : List UIElement :=
  if isWindowRole (roleLowerOf w) then
    match buildElem w with
    | some e => [e]
    | none => []
  else []

/-- The inner loop of `get_windows` over one application's top-level child
slots; an unguarded `getChildAtIndex` raise aborts the walk. -/
def winsOfWindows : List (Except String Accessible) → Except String (List UIElement)
  | [] => .ok []
  | .error e :: _ => .error e
  | .ok w :: rest =>
      match winsOfWindows rest with
      | .error e => .error e
      | .ok ws => .ok (processWindow w ++ ws)

/-- One application's contribution: its `childCount` read may raise,
otherwise its child slots are walked. -/
def winsOfApp (a : AppNode) : Except String (List UIElement) :=
  match a.childCountE with
  | some e => .error e
  | none => winsOfWindows a.kids

/-- The outer loop of `get_windows` over the application slots. -/
def collectApps : List (Except String AppNode) → Except String (List UIElement)
  | [] => .ok []
  | .error e :: _ => .error e
  | .ok a :: rest =>
      match winsOfApp a with
      | .error e => .error e
      | .ok ws =>
          match collectApps rest with
          | .error e => .error e
          | .ok rest2 => .ok (ws ++ rest2)

/-- The primary AT-SPI capture of `get_windows`: the full two-level loop
under the desktop root. -/
def primaryCapture (d : DesktopNode) : Except String (List UIElement) :=
  match d.childCountE with
  | some e => .error e
  | none => collectApps d.apps

/-! ### Fallback lister (`wmctrl -l` branch of `get_windows`) -/

/-- One output line: `parts = line.split(None, 3)`; with at least four
parts, a stub window with `title = parts[3].strip()`; otherwise nothing. -/
def stubOfLine (line : String) : Option UIElement :=
  let parts := pySplitWs3 line
  if 4 ≤ parts.length then
    some (UIElement.mk "window" (pyStrip (parts.getD 3 "")) "" 0 0 0 0 [])
  else none

/-- The fallback branch: `check_output` raising is caught
(`except: pass`, empty result); otherwise each line of the output is
turned into a stub when usable. -/
def wmctrlWindows : Option String → List UIElement
  | none => []
  | some out => (pySplitlines out).filterMap stubOfLine

/-! ### The query operations

Each `…T` function additionally returns a `Bool` recording whether the
`wmctrl` fallback command was executed during the call; the plain wrapper
projects the result away from that instrumentation. -/

/-- Method `get_windows`: primary capture; on an empty primary result the
`wmctrl` fallback is consulted; any unguarded raise inside the outer
`try` surfaces as `success: false` with the exception's message. -/
def get_windowsT (env : Env) : Except String (List UIElement) × Bool :=
  match env.getDesktop with
  | .error e => (.error e, false)
  | .ok d =>
      match primaryCapture d with
      | .error e => (.error e, false)
      | .ok ws =>
          if ws.isEmpty then (.ok (wmctrlWindows env.wmctrl), true)
          else (.ok ws, false)

def get_windows (env : Env) : Except String (List UIElement) :=
  (get_windowsT env).1

/-- Method `find_window_by_title`: pass a failed `get_windows` result through;
otherwise the first window whose lowered title contains the lowered query;
otherwise the not-found error naming the query. -/
def find_window_by_titleT (env : Env) (title : String) :
    Except String UIElement × Bool :=
  match get_windowsT env with
  | (.error e, fb) => (.error e, fb)
  | (.ok wins, fb) =>
      match wins.find? (fun w => isSubstring (pyLower title) (pyLower w.title)) with
      | some w => (.ok w, fb)
      | none =>
          (.error ("No window with title containing \x27" ++ title ++ "\x27 found"), fb)

def find_window_by_title (env : Env) (title : String) : Except String UIElement :=
  (find_window_by_titleT env title).1

/-- Method `find_window_by_role`: pass a failed `get_windows` result through;
otherwise all windows whose lowered role equals the lowered query, or the
not-found error naming the role when that set is empty. -/
def find_window_by_roleT (env : Env) (role : String) :
    Except String (List UIElement) × Bool :=
  match get_windowsT env with
  | (.error e, fb) => (.error e, fb)
  | (.ok wins, fb) =>
      let ms := wins.filter (fun w => pyLower w.role == pyLower role)
      if ms.isEmpty then
        (.error ("No windows with role \x27" ++ role ++ "\x27 found"), fb)
      else (.ok ms, fb)

def find_window_by_role (env : Env) (role : String) : Except String (List UIElement) :=
  (find_window_by_roleT env role).1

/-- The not-found message of `find_window_by_value`; Python's f-string
renders a `None` query as the text `None`. -/
def noValueMsg : Option String → String
  | some v => "No window with value \x27" ++ v ++ "\x27 found"
  | none => "No window with value \x27None\x27 found"

/-- The inner loop of `find_window_by_value` over one application's child
slots: window-like children are constructed *unguarded* (a raising
construction aborts the walk) and tested with `contains_value`; the first
match is returned. -/
def fwvScan (v : Option String) : List (Except String Accessible) →
    Except String (Option UIElement)
  | [] => .ok none
  | .error e :: _ => .error e
  | .ok w :: rest =>
      if isWindowRole (roleLowerOf w) then
        match buildElem w with
        | none => .error "LinuxUIElement construction failed"
        | some e =>
            if contains_value e v then .ok (some e) else fwvScan v rest
      else fwvScan v rest

/-- The outer loop of `find_window_by_value` over the application slots. -/
def fwvScanApps (v : Option String) : List (Except String AppNode) →
    Except String (Option UIElement)
  | [] => .ok none
  | .error e :: _ => .error e
  | .ok a :: rest =>
      match (match a.childCountE with
             | some e => Except.error e
             | none => fwvScan v a.kids) with
      | .error e => .error e
      | .ok (some w) => .ok (some w)
      | .ok none => fwvScanApps v rest

/-- Method `find_window_by_value`: a direct desktop walk (it does *not* call
`get_windows` and never consults the `wmctrl` fallback); the first
window-like top-level child whose tree contains the value is returned
whole, else the not-found error naming the query. -/
def find_window_by_valueT (env : Env) (v : Option String) :
    Except String UIElement × Bool :=
  (match env.getDesktop with
   | .error e => .error e
   | .ok d =>
       match d.childCountE with
       | some e => .error e
       | none =>
           match fwvScanApps v d.apps with
           | .error e => .error e
           | .ok (some w) => .ok w
           | .ok none => .error (noValueMsg v),
   false)

def find_window_by_value (env : Env) (v : Option String) : Except String UIElement :=
  (find_window_by_valueT env v).1

/-! ### Derived predicates used to state the claims -/

/-- An application slot of the `get_windows` walk is fault-free: the
`getChildAtIndex` read succeeded, the application's `childCount` read
succeeds, and all its `getChildAtIndex` reads succeed. -/
def appSlotOkB : Except String AppNode → Bool
  | .error _ => false
  | .ok a => a.childCountE.isNone && a.kids.all (fun k => resultOk k)

/-- Some unguarded backend read of the `get_windows` walk raises: the
desktop root is unobtainable, a `childCount` read raises, or a
`getChildAtIndex` read raises. -/
def enumFaultB (env : Env) : Bool :=
  match env.getDesktop with
  | .error _ => true
  | .ok d => !(d.childCountE.isNone && d.apps.all appSlotOkB)

/-- The primary capture succeeds and yields zero top-level windows. -/
def primaryOkEmptyB (env : Env) : Bool :=
  match env.getDesktop with
  | .error _ => false
  | .ok d =>
      match primaryCapture d with
      | .ok ws => ws.isEmpty
      | .error _ => false

/-- The fallback source is unusable: the listing command raises
(unavailable or non-zero exit), or no output line yields a stub. -/
def fallbackUnusableB (env : Env) : Bool :=
  match env.wmctrl with
  | none => true
  | some out => (pySplitlines out).all (fun l => (stubOfLine l).isNone)

/-- The geometry block did not complete all its reads (query raised,
interface falsy, position read raised, or size read raised). -/
def geomFaultB : CompQ → Bool
  | .qraise | .falsy | .posRaise | .sizeRaise _ _ => true
  | .ok _ _ _ _ => false

/-- A node's *own* fields match the query: case-insensitive substring
containment against a non-empty `value` or a non-empty `title`. -/
def ownMatch (q : String) : UIElement → Bool
  | .mk _ title value _ _ _ _ _ =>
      (value != "" && isSubstring (pyLower q) (pyLower value)) ||
      (title != "" && isSubstring (pyLower q) (pyLower title))

mutual

/-- The nodes of a tree in depth-first pre-order (a node before its
children, children in order). -/
def preorderNodes : UIElement → List UIElement
  | .mk r t v x y w h cs => UIElement.mk r t v x y w h cs :: preorderList cs

def preorderList : List UIElement → List UIElement
  | [] => []
  | c :: rest => preorderNodes c ++ preorderList rest

end

/-- The constructed top-level window elements of one application's child
slots, in enumeration order (faulty slots and raising constructions
skipped; coincides with the walk when the walk is clean). -/
def topWinsOfKids : List (Except String Accessible) → List UIElement
  | [] => []
  | .error _ :: rest => topWinsOfKids rest
  | .ok w :: rest =>
      (if isWindowRole (roleLowerOf w) then (buildElem w).toList else []) ++
        topWinsOfKids rest

/-- The constructed top-level window elements of the whole desktop, in
enumeration order. -/
def topWinsOfApps : List (Except String AppNode) → List UIElement
  | [] => []
  | .error _ :: rest => topWinsOfApps rest
  | .ok a :: rest => topWinsOfKids a.kids ++ topWinsOfApps rest

/-- The top-level window sequence of an environment. -/
def topWinsEnv (env : Env) : List UIElement :=
  match env.getDesktop with
  | .error _ => []
  | .ok d => topWinsOfApps d.apps

/-- A top-level child slot is clean for the `find_window_by_value` walk:
the `getChildAtIndex` read succeeded and, when the child is window-like,
its (unguarded) construction does not raise. -/
def kidSlotOkB : Except String Accessible → Bool
  | .error _ => false
  | .ok w => !(isWindowRole (roleLowerOf w)) || !w.broken

/-- An application slot is clean for the `find_window_by_value` walk. -/
def appSlotCleanB : Except String AppNode → Bool
  | .error _ => false
  | .ok a => a.childCountE.isNone && a.kids.all kidSlotOkB

/-- The desktop walk raises nothing: the root is obtained, every
`childCount` / `getChildAtIndex` read succeeds, and no window-like
top-level child's construction raises. -/
def cleanWalkB (env : Env) : Bool :=
  match env.getDesktop with
  | .error _ => false
  | .ok d => d.childCountE.isNone && d.apps.all appSlotCleanB

/-- Modelled from the spec: the value-resolution priority chain as §3
words it — the text-content interface's text if available, else the
scalar-value interface's current value if available, else the title
(which is itself the empty string when unavailable). -/
def valueSpecChain (t : TextQ) (v : ValQ) (title : String) : String :=
  match t with
  | .ok s => s
  | _ =>
      match v with
      | .ok s => s
      | _ => title

/-! ### Concrete fixtures (used by witnesses and counterexamples) -/

/-- A text node whose value contains the word needle. -/
def needleLeaf : Accessible :=
  .mk ⟨some "text", some (some "lbl"), .ok "has needle", .qraise, .qraise⟩ false [] false

/-- A frame titled Terminal with the text node as child. -/
def termWin : Accessible :=
  .mk ⟨some "frame", some (some "Terminal"), .qraise, .qraise, .ok 1 2 3 4⟩ false
    [needleLeaf] false

/-- One application exposing the frame. -/
def termApp : AppNode := ⟨none, [.ok termWin]⟩

/-- An environment with one application and one window. -/
def envTerm : Env := ⟨.ok ⟨none, [.ok termApp]⟩, none⟩

/-- The element `buildElem` produces for `needleLeaf`. -/
def leafElem : UIElement := .mk "text" "lbl" "has needle" 0 0 0 0 []

/-- The element `buildElem` produces for `termWin`. -/
def termElem : UIElement := .mk "frame" "Terminal" "Terminal" 1 2 3 4 [leafElem]

/-- An environment whose primary capture succeeds with zero windows but
whose `wmctrl` listing yields one usable line. -/
def envNoWin : Env := ⟨.ok ⟨none, []⟩, some "0x1 0 99 Term X"⟩

/-- An environment whose primary capture succeeds with zero windows and
whose `wmctrl` command raises. -/
def envBare : Env := ⟨.ok ⟨none, []⟩, none⟩

/-- An environment whose desktop root is obtained but whose first
application slot read (`desktop.getChildAtIndex(0)`) raises. -/
def envAppFault : Env := ⟨.ok ⟨none, [.error "boom"]⟩, none⟩

/-- A backend child whose construction raises. -/
def brokenKid : Accessible :=
  .mk ⟨some "x", some (some "b"), .qraise, .qraise, .qraise⟩ true [] false

/-! ### Helper lemmas -/

theorem find?_append_left {α} {p : α → Bool} {l₁ l₂ : List α} {a : α}
    (h : l₁.find? p = some a) : (l₁ ++ l₂).find? p = some a := by
  induction l₁ with
  | nil => simp [List.find?] at h
  | cons x rest ih =>
      by_cases hx : p x
      · rw [List.find?_cons_of_pos _ hx] at h
        rw [List.cons_append, List.find?_cons_of_pos _ hx]
        exact h
      · rw [List.find?_cons_of_neg _ (by simpa using hx)] at h
        rw [List.cons_append, List.find?_cons_of_neg _ (by simpa using hx)]
        exact ih h

theorem find?_append_right {α} {p : α → Bool} {l₁ l₂ : List α}
    (h : l₁.find? p = none) : (l₁ ++ l₂).find? p = l₂.find? p := by
  induction l₁ with
  | nil => simp
  | cons x rest ih =>
      by_cases hx : p x
      · rw [List.find?_cons_of_pos _ hx] at h
        exact absurd h (by simp)
      · rw [List.find?_cons_of_neg _ (by simpa using hx)] at h
        rw [List.cons_append, List.find?_cons_of_neg _ (by simpa using hx)]
        exact ih h

/-- Building children distributes over append. -/
theorem buildChildren_append (xs ys : List Accessible) :
    buildChildren (xs ++ ys) = buildChildren xs ++ buildChildren ys := by
  induction xs with
  | nil => rfl
  | cons c rest ih =>
      simp only [List.cons_append, buildChildren]
      cases buildElem c <;> simp [ih]

/-- A non-raising construction yields exactly the node assembled from its
four attribute reads and its surviving children. -/
theorem buildElem_not_broken (reads : AttrReads) (kids : List Accessible)
    (flag : Bool) :
    buildElem (.mk reads false kids flag) =
      some (UIElement.mk (roleOf reads.roleName) (titleOf reads.name)
        (valueOf reads.textQ reads.valQ (titleOf reads.name))
        (geomOf reads.compQ).1 (geomOf reads.compQ).2.1
        (geomOf reads.compQ).2.2.1 (geomOf reads.compQ).2.2.2
        (buildChildren kids)) := rfl

/-- A raising construction yields nothing. -/
theorem buildElem_broken (a : Accessible) (h : a.broken = true) :
    buildElem a = none := by
  cases a with
  | mk reads broken kids flag =>
      simp [Accessible.broken] at h
      simp [buildElem, h]

/-- A non-raising construction yields a node. -/
theorem buildElem_some (a : Accessible) (h : a.broken = false) :
    ∃ e, buildElem a = some e := by
  cases a with
  | mk reads broken kids flag =>
      simp [Accessible.broken] at h
      subst h
      exact ⟨_, buildElem_not_broken reads kids flag⟩

/-- A `None` search value never matches. -/
theorem contains_value_none (e : UIElement) : contains_value e none = false := by
  cases e with
  | mk r t v x y w h cs => simp [contains_value]

mutual

/-- The search `contains_value` is exactly an existence test of an own-field match
over the depth-first pre-order node list. -/
theorem contains_eq_any (e : UIElement) (q : String) :
    contains_value e (some q) = (preorderNodes e).any (ownMatch q) := by
  cases e with
  | mk r t v x y w h cs =>
      simp only [contains_value, preorderNodes, List.any_cons, ownMatch]
      rw [anyContains_eq_any cs q]

theorem anyContains_eq_any (cs : List UIElement) (q : String) :
    anyContains cs (some q) = (preorderList cs).any (ownMatch q) := by
  match cs with
  | [] => simp [anyContains, preorderList]
  | c :: rest =>
      simp only [anyContains, preorderList, List.any_append]
      rw [contains_eq_any c q, anyContains_eq_any rest q]

end

/-- The inner `get_windows` loop succeeds exactly when every child-slot
read succeeds. -/
theorem winsOfWindows_ok (l : List (Except String Accessible)) :
    resultOk (winsOfWindows l) = l.all (fun k => resultOk k) := by
  induction l with
  | nil => rfl
  | cons s rest ih =>
      cases s with
      | error e => rfl
      | ok w =>
          simp only [winsOfWindows, List.all_cons]
          cases hr : winsOfWindows rest with
          | error e => rw [← ih, hr]; rfl
          | ok ws => rw [← ih, hr]; rfl

/-- One application slot of `get_windows` succeeds exactly when it is
fault-free. -/
theorem winsOfApp_ok (a : AppNode) :
    resultOk (winsOfApp a) = appSlotOkB (Except.ok a) := by
  show resultOk (winsOfApp a) = (a.childCountE.isNone && a.kids.all fun k => resultOk k)
  unfold winsOfApp
  cases hc : a.childCountE with
  | some m => simp [resultOk]
  | none => rw [winsOfWindows_ok]; simp

/-- The outer `get_windows` loop succeeds exactly when every application
slot is fault-free. -/
theorem collectApps_ok (l : List (Except String AppNode)) :
    resultOk (collectApps l) = l.all appSlotOkB := by
  induction l with
  | nil => rfl
  | cons s rest ih =>
      cases s with
      | error e => rfl
      | ok a =>
          simp only [collectApps, List.all_cons]
          rw [← winsOfApp_ok, ← ih]
          cases hw : winsOfApp a with
          | error e => rfl
          | ok ws => cases hcr : collectApps rest <;> rfl

/-- Under a clean environment, the `find_window_by_value` inner loop
returns the first window element, in enumeration order, whose tree
contains the value. -/
theorem fwvScan_clean (v : Option String) (l : List (Except String Accessible))
    (h : l.all kidSlotOkB = true) :
    fwvScan v l = .ok ((topWinsOfKids l).find? (fun w => contains_value w v)) := by
  induction l with
  | nil => rfl
  | cons s rest ih =>
      rw [List.all_cons, Bool.and_eq_true] at h
      obtain ⟨hs, hrest⟩ := h
      cases s with
      | error e => simp [kidSlotOkB] at hs
      | ok w =>
          by_cases hr : isWindowRole (roleLowerOf w)
          · have hb : w.broken = false := by
              simp [kidSlotOkB, hr] at hs
              exact hs
            obtain ⟨e, he⟩ := buildElem_some w hb
            rw [fwvScan, topWinsOfKids, he, if_pos hr, if_pos hr]
            cases hc : contains_value e v with
            | true => simp [hc]
            | false => simp [hc, ih hrest]
          · rw [fwvScan, topWinsOfKids, if_neg hr, if_neg hr]
            simpa using ih hrest

/-- Under a clean environment, the `find_window_by_value` outer loop
returns the first window element over all applications. -/
theorem fwvScanApps_clean (v : Option String) (l : List (Except String AppNode))
    (h : l.all appSlotCleanB = true) :
    fwvScanApps v l = .ok ((topWinsOfApps l).find? (fun w => contains_value w v)) := by
  induction l with
  | nil => rfl
  | cons s rest ih =>
      rw [List.all_cons, Bool.and_eq_true] at h
      obtain ⟨hs, hrest⟩ := h
      cases s with
      | error e => simp [appSlotCleanB] at hs
      | ok a =>
          rw [appSlotCleanB, Bool.and_eq_true] at hs
          obtain ⟨hcn, hkids⟩ := hs
          rw [Option.isNone_iff_eq_none] at hcn
          rw [fwvScanApps, topWinsOfApps, hcn, fwvScan_clean v a.kids hkids]
          cases hf : (topWinsOfKids a.kids).find? (fun w => contains_value w v) with
          | some w => rw [find?_append_left hf]
          | none => rw [find?_append_right hf]; exact ih hrest

/-- The inner loop with a `None` query never yields a window. -/
theorem fwvScan_none_result (l : List (Except String Accessible)) :
    fwvScan none l = .ok none ∨ ∃ e, fwvScan none l = .error e := by
  induction l with
  | nil => left; rfl
  | cons s rest ih =>
      cases s with
      | error e => right; exact ⟨e, rfl⟩
      | ok w =>
          by_cases hr : isWindowRole (roleLowerOf w)
          · cases hb : buildElem w with
            | none =>
                right
                refine ⟨"LinuxUIElement construction failed", ?_⟩
                rw [fwvScan, if_pos hr, hb]
            | some e =>
                rw [fwvScan, if_pos hr, hb]
                simpa [contains_value_none] using ih
          · rw [fwvScan, if_neg hr]
            exact ih

/-- The outer loop with a `None` query never yields a window. -/
theorem fwvScanApps_none_result (l : List (Except String AppNode)) :
    fwvScanApps none l = .ok none ∨ ∃ e, fwvScanApps none l = .error e := by
  induction l with
  | nil => left; rfl
  | cons s rest ih =>
      cases s with
      | error e => right; exact ⟨e, rfl⟩
      | ok a =>
          cases hc : a.childCountE with
          | some m =>
              right
              refine ⟨m, ?_⟩
              rw [fwvScanApps, hc]
          | none =>
              rcases fwvScan_none_result a.kids with hk | ⟨e, hk⟩
              · rw [fwvScanApps, hc, hk]
                exact ih
              · right
                refine ⟨e, ?_⟩
                rw [fwvScanApps, hc, hk]

/-- The primary capture succeeds exactly when the whole walk under the
desktop root is fault-free. -/
theorem primaryCapture_ok (d : DesktopNode) :
    resultOk (primaryCapture d) = (d.childCountE.isNone && d.apps.all appSlotOkB) := by
  unfold primaryCapture
  cases hc : d.childCountE with
  | some m => simp [resultOk]
  | none => rw [collectApps_ok]; simp

/-- A filter-map over elements that all map to `none` is empty. -/
theorem filterMap_nil_of_all_none {α β : Type} (f : α → Option β) (l : List α)
    (h : l.all (fun x => (f x).isNone) = true) : l.filterMap f = [] := by
  induction l with
  | nil => rfl
  | cons x rest ih =>
      rw [List.all_cons, Bool.and_eq_true] at h
      obtain ⟨hx, hrest⟩ := h
      rw [Option.isNone_iff_eq_none] at hx
      rw [List.filterMap_cons, hx]
      exact ih hrest

/-! ### The claims -/

/-- C1 (counterexample): in `envAppFault` the desktop root *is* obtained,
yet `get_windows` surfaces `success: false` — the unguarded
`desktop.getChildAtIndex(0)` read raises during application enumeration,
so a hard failure is not confined to an unobtainable root. -/
theorem C1_counterexample :
    resultOk (Env.getDesktop envAppFault) = true ∧
    get_windows envAppFault = .error "boom" := ⟨rfl, rfl⟩

/-- C1 (amended): `get_windows` returns `success: false` exactly when the
desktop root cannot be obtained *or* one of the unguarded enumeration
reads (`childCount` / `getChildAtIndex` on the desktop or an application)
raises; faults in a top-level child's role read or in constructing its
subtree never surface a hard failure (they are absent from
`enumFaultB`). -/
theorem C1_capture_error_characterization (env : Env) :
    resultOk (get_windows env) = !enumFaultB env := by
  obtain ⟨gd, wm⟩ := env
  cases gd with
  | error e => rfl
  | ok d =>
      simp only [get_windows, get_windowsT, enumFaultB]
      rw [← primaryCapture_ok]
      cases hp : primaryCapture d with
      | error e => rfl
      | ok ws => cases hw : ws.isEmpty <;> simp [hw, resultOk]

/-- C2 (counterexample): in `envNoWin` the primary capture succeeds with
zero top-level windows (so the claimed state machine requires the
fallback), and `get_windows` does run the fallback, but
`find_window_by_value` does not — refuting the claim's extension of the
fallback trigger to `find_window_by_value`. -/
theorem C2_counterexample :
    primaryOkEmptyB envNoWin = true ∧
    (get_windowsT envNoWin).2 = true ∧
    (find_window_by_valueT envNoWin (some "x")).2 = false := ⟨rfl, rfl, rfl⟩

/-- C2 (amended): the `wmctrl` fallback is executed exactly when the
primary capture succeeds with zero top-level windows for `get_windows`,
`find_window_by_title` and `find_window_by_role` (the latter two inherit
`get_windows`' behaviour verbatim), while `find_window_by_value` performs
its own direct walk and never executes the fallback. -/
theorem C2_fallback_trigger (env : Env) (t r : String) (v : Option String) :
    ((get_windowsT env).2 = primaryOkEmptyB env) ∧
    ((find_window_by_titleT env t).2 = (get_windowsT env).2) ∧
    ((find_window_by_roleT env r).2 = (get_windowsT env).2) ∧
    ((find_window_by_valueT env v).2 = false) := by
  refine ⟨?_, ?_, ?_, rfl⟩
  · obtain ⟨gd, wm⟩ := env
    cases gd with
    | error e => rfl
    | ok d =>
        simp only [get_windowsT, primaryOkEmptyB]
        cases hp : primaryCapture d with
        | error e => rfl
        | ok ws => cases hw : ws.isEmpty <;> simp [hw]
  · cases hg : get_windowsT env with
    | mk res fb =>
        simp only [find_window_by_titleT, hg]
        cases res with
        | error e => rfl
        | ok wins =>
            cases hf : wins.find?
                (fun w => isSubstring (pyLower t) (pyLower w.title)) <;>
              simp [hf]
  · cases hg : get_windowsT env with
    | mk res fb =>
        simp only [find_window_by_roleT, hg]
        cases res with
        | error e => rfl
        | ok wins =>
            cases hm : (wins.filter (fun w => pyLower w.role == pyLower r)).isEmpty <;>
              simp [hm]

/-- C3: when the primary capture succeeds with zero top-level windows and
the fallback source is unusable (command raises, or no output line has at
least four fields), `get_windows` still returns `success: true` with an
empty window list; it neither fails nor raises (the model is a total
function). -/
theorem C3_fallback_exhausted (env : Env)
    (h1 : primaryOkEmptyB env = true) (h2 : fallbackUnusableB env = true) :
    get_windows env = .ok [] := by
  obtain ⟨gd, wm⟩ := env
  cases gd with
  | error e => exact absurd h1 (by simp [primaryOkEmptyB])
  | ok d =>
      simp only [primaryOkEmptyB] at h1
      simp only [get_windows, get_windowsT]
      cases hp : primaryCapture d with
      | error e => rw [hp] at h1; exact absurd h1 (by simp)
      | ok ws =>
          rw [hp] at h1
          dsimp only at h1 ⊢
          rw [if_pos h1]
          simp only [fallbackUnusableB] at h2
          cases wm with
          | none => rfl
          | some out =>
              simp only [wmctrlWindows]
              rw [filterMap_nil_of_all_none stubOfLine (pySplitlines out) h2]

/-- C3 (witness): a concrete environment with an empty desktop and a
raising `wmctrl` command. -/
theorem C3_witness :
    primaryOkEmptyB envBare = true ∧ fallbackUnusableB envBare = true ∧
    get_windows envBare = .ok [] :=
  ⟨rfl, rfl, C3_fallback_exhausted envBare rfl rfl⟩

/-- C4: under a fault-free walk, `find_window_by_value` returns exactly
the first top-level window element, in enumeration order, whose tree
contains the query (so always a whole top-level tree, never a bare
descendant), and the not-found error names the query; and the
containment test is an existence test of an own-field match over the
depth-first pre-order node list (each node before its children). -/
theorem C4_find_by_value_semantics (env : Env) (q : String)
    (h : cleanWalkB env = true) :
    (find_window_by_value env (some q) =
       match (topWinsEnv env).find? (fun w => contains_value w (some q)) with
       | some w => .ok w
       | none => .error (noValueMsg (some q))) ∧
    (∀ e : UIElement, contains_value e (some q) = (preorderNodes e).any (ownMatch q)) := by
  refine ⟨?_, fun e => contains_eq_any e q⟩
  obtain ⟨gd, wm⟩ := env
  cases gd with
  | error e => exact absurd h (by simp [cleanWalkB])
  | ok d =>
      simp only [cleanWalkB, Bool.and_eq_true] at h
      obtain ⟨hc, happs⟩ := h
      rw [Option.isNone_iff_eq_none] at hc
      simp only [find_window_by_value, find_window_by_valueT, topWinsEnv, hc]
      rw [fwvScanApps_clean _ _ happs]
      cases hf : (topWinsOfApps d.apps).find? (fun w => contains_value w (some q)) <;> rfl

/-- C4 (witness): in `envTerm` a query matched only by a descendant text
node returns the *whole* enclosing top-level window tree. -/
theorem C4_witness :
    find_window_by_value envTerm (some "needle") = .ok termElem :=
  ((C4_find_by_value_semantics envTerm "needle" (by decide)).1).trans rfl

/-- C5 (counterexample): on a node whose `getPosition` read succeeds with
`(5, 7)` and whose `getSize` read then raises, the geometry read has
failed yet `x = 5 ≠ 0` while `width = 0` — a partially-populated bounding
box, refuting the all-zero-on-failure clause. -/
theorem C5_counterexample :
    geomFaultB (CompQ.sizeRaise 5 7) = true ∧
    ∃ e, buildElem (Accessible.mk
        ⟨some "panel", some (some "n"), TextQ.qraise, ValQ.qraise, CompQ.sizeRaise 5 7⟩
        false [] false) = some e ∧
      e.x = 5 ∧ e.y = 7 ∧ e.width = 0 ∧ e.height = 0 :=
  ⟨rfl, UIElement.mk "panel" "n" "n" 5 7 0 0 [], rfl, rfl, rfl, rfl, rfl⟩

/-- C5 (amended): per-node construction performs four isolated attribute
reads — each output field equals a function of exactly its own block's
read outcomes — with role and title defaulting to the empty string, value
per its priority chain, and geometry all-zero when the component query,
its truthiness test, or the position read fails; but when the position
read succeeds and only the size read fails, `x, y` keep the read position
while `width, height` stay `0`. -/
theorem C5_attribute_isolation (reads : AttrReads) (kids : List Accessible)
    (flag : Bool) :
    ∃ e, buildElem (Accessible.mk reads false kids flag) = some e ∧
      e.role = roleOf reads.roleName ∧
      e.title = titleOf reads.name ∧
      e.value = valueOf reads.textQ reads.valQ (titleOf reads.name) ∧
      (e.x, e.y, e.width, e.height) = geomOf reads.compQ ∧
      (reads.roleName = none → e.role = "") ∧
      (reads.name = none → e.title = "") ∧
      ((reads.compQ = CompQ.qraise ∨ reads.compQ = CompQ.falsy ∨
          reads.compQ = CompQ.posRaise) →
        (e.x, e.y, e.width, e.height) = (0, 0, 0, 0)) ∧
      (∀ px py, reads.compQ = CompQ.sizeRaise px py →
        (e.x, e.y, e.width, e.height) = (px, py, 0, 0)) := by
  refine ⟨_, buildElem_not_broken reads kids flag, rfl, rfl, rfl, rfl, ?_, ?_, ?_, ?_⟩
  · intro h; rw [h]; rfl
  · intro h; rw [h]; rfl
  · intro h
    show geomOf reads.compQ = (0, 0, 0, 0)
    rcases h with h | h | h <;> rw [h] <;> rfl
  · intro px py h
    show geomOf reads.compQ = (px, py, 0, 0)
    rw [h]
    rfl

/-- C5 (witness): the amended clauses at a node with a raising role read,
a `None` name, and a `getSize`-raising geometry block. -/
theorem C5_witness :
    ∃ e, buildElem (Accessible.mk
        ⟨none, none, TextQ.qraise, ValQ.qraise, CompQ.sizeRaise 5 7⟩
        false [] false) = some e ∧
      e.role = "" ∧ e.title = "" ∧ (e.x, e.y, e.width, e.height) = (5, 7, 0, 0) := by
  obtain ⟨e, he, _, _, _, _, hrole, htitle, _, hsize⟩ :=
    C5_attribute_isolation
      ⟨none, none, TextQ.qraise, ValQ.qraise, CompQ.sizeRaise 5 7⟩ [] false
  exact ⟨e, he, hrole rfl, htitle rfl, hsize 5 7 rfl⟩

/-- C6: a child whose construction raises is omitted from `children`
without affecting earlier or later siblings; the parent is returned with
its surviving children even when the child iteration itself raises
(`flag` arbitrary, and the output is independent of it). -/
theorem C6_child_fault_isolation (reads : AttrReads)
    (kids xs ys : List Accessible) (flag : Bool) (b : Accessible) :
    (∃ e, buildElem (Accessible.mk reads false kids flag) = some e ∧
       e.children = buildChildren kids) ∧
    (b.broken = true →
       buildChildren (xs ++ b :: ys) = buildChildren xs ++ buildChildren ys) ∧
    (buildElem (Accessible.mk reads false kids true) =
       buildElem (Accessible.mk reads false kids false)) := by
  refine ⟨⟨_, buildElem_not_broken reads kids flag, rfl⟩, ?_, rfl⟩
  intro hb
  rw [buildChildren_append, buildChildren, buildElem_broken b hb]

/-- C6 (witness): a raising middle child is dropped while both siblings
survive, in order. -/
theorem C6_witness :
    buildChildren ([needleLeaf] ++ brokenKid :: [needleLeaf]) =
      [leafElem, leafElem] := by
  have h := (C6_child_fault_isolation
    ⟨some "x", some (some "b"), TextQ.qraise, ValQ.qraise, CompQ.qraise⟩
    [] [needleLeaf] [needleLeaf] false brokenKid).2.1 rfl
  exact h.trans rfl

/-- C7: on backend states where the interface probes return real (truthy)
interface objects or raise — which is what AT-SPI `query…` calls do — the
constructed value follows the spec's priority chain: text-content text if
obtained, else scalar current value if obtained, else the title (itself
empty when unavailable). -/
theorem C7_value_priority (t : TextQ) (v : ValQ) (title : String)
    (ht : t ≠ TextQ.falsy) (hv : v ≠ ValQ.falsy) :
    valueOf t v title = valueSpecChain t v title := by
  cases t <;> cases v <;>
    first
      | rfl
      | exact absurd rfl ht
      | exact absurd rfl hv

/-- C7 (witness): the chain at a raising text probe and a scalar read of
`0.5`, and at a doubly raising probe falling back to the title. -/
theorem C7_witness :
    valueOf TextQ.qraise (ValQ.ok "0.5") "ttl" =
      valueSpecChain TextQ.qraise (ValQ.ok "0.5") "ttl" ∧
    valueOf TextQ.qraise (ValQ.ok "0.5") "ttl" = "0.5" ∧
    valueOf TextQ.getRaise ValQ.curRaise "ttl" = "ttl" :=
  ⟨C7_value_priority TextQ.qraise (ValQ.ok "0.5") "ttl" (by decide) (by decide),
   rfl,
   (C7_value_priority TextQ.getRaise ValQ.curRaise "ttl" (by decide) (by decide)).trans rfl⟩

/-- C8: a fallback line with fewer than four whitespace-delimited fields
contributes no stub; a line with four fields yields exactly the stub
`role="window"`, `title` = stripped fourth-and-remaining portion,
`value=""`, zero geometry, no children; and the lister is precisely the
per-line stub map over the split output lines. -/
theorem C8_stub_shape (line out : String) :
    ((pySplitWs3 line).length < 4 → stubOfLine line = none) ∧
    (4 ≤ (pySplitWs3 line).length →
       stubOfLine line =
         some (UIElement.mk "window" (pyStrip ((pySplitWs3 line).getD 3 ""))
           "" 0 0 0 0 [])) ∧
    (wmctrlWindows (some out) = (pySplitlines out).filterMap stubOfLine) := by
  refine ⟨?_, ?_, rfl⟩
  · intro h
    simp only [stubOfLine]
    rw [if_neg (by omega)]
  · intro h
    simp only [stubOfLine]
    rw [if_pos h]

/-- C8 (witness): a four-field line (title containing spaces, trailing
whitespace stripped) and a three-field line. -/
theorem C8_witness :
    stubOfLine "0x1 0 host My App " =
      some (UIElement.mk "window" "My App" "" 0 0 0 0 []) ∧
    stubOfLine "0x1 0 host" = none := by
  constructor
  · exact ((C8_stub_shape "0x1 0 host My App " "").2.1 (by decide)).trans rfl
  · exact (C8_stub_shape "0x1 0 host" "").1 (by decide)

/-- C9: over a successful window set, `find_window_by_title` returns the
first window, in capture order, whose title contains the query under
case-insensitive comparison, and otherwise the failure message naming the
query string. -/
theorem C9_find_by_title (env : Env) (t : String) (ws : List UIElement)
    (h : get_windows env = .ok ws) :
    find_window_by_title env t =
      match ws.find? (fun w => isSubstring (pyLower t) (pyLower w.title)) with
      | some w => .ok w
      | none =>
          .error ("No window with title containing \x27" ++ t ++ "\x27 found") := by
  simp only [get_windows] at h
  cases hg : get_windowsT env with
  | mk res fb =>
      rw [hg] at h
      simp only [find_window_by_title, find_window_by_titleT, hg]
      dsimp only at h
      subst h
      cases hf : ws.find? (fun w => isSubstring (pyLower t) (pyLower w.title)) <;>
        simp [hf]

/-- C9 (witness): the window titled Terminal matches the query term
case-insensitively, and a non-matching query yields the naming error. -/
theorem C9_witness :
    find_window_by_title envTerm "term" = .ok termElem ∧
    find_window_by_title envTerm "zzz" =
      .error "No window with title containing \x27zzz\x27 found" :=
  ⟨(C9_find_by_title envTerm "term" [termElem] rfl).trans rfl,
   (C9_find_by_title envTerm "zzz" [termElem] rfl).trans rfl⟩

/-- C10: value matching is case-insensitive substring containment against
a node's `value` and `title` (each only when non-empty); a node with
empty `value` and `title` can match only through its children, hence a
childless such node matches no query; and a `None` query matches no node,
so `find_window_by_value` with a `None` query always returns failure. -/
theorem C10_value_matching (env : Env) (q r t v : String) (x y w h : Int)
    (cs : List UIElement) :
    (∀ e : UIElement, contains_value e none = false) ∧
    (contains_value (UIElement.mk r t v x y w h cs) (some q) =
       ((v != "" && isSubstring (pyLower q) (pyLower v)) ||
        (t != "" && isSubstring (pyLower q) (pyLower t)) ||
        anyContains cs (some q))) ∧
    (contains_value (UIElement.mk r "" "" x y w h cs) (some q) =
       anyContains cs (some q)) ∧
    (contains_value (UIElement.mk r "" "" x y w h []) (some q) = false) ∧
    (∃ msg, find_window_by_value env none = .error msg) := by
  refine ⟨contains_value_none, rfl, by simp [contains_value],
    by simp [contains_value, anyContains], ?_⟩
  obtain ⟨gd, wm⟩ := env
  cases gd with
  | error e => exact ⟨e, rfl⟩
  | ok d =>
      simp only [find_window_by_value, find_window_by_valueT]
      cases hc : d.childCountE with
      | some m => exact ⟨m, rfl⟩
      | none =>
          rcases fwvScanApps_none_result d.apps with hk | ⟨e, hk⟩
          · exact ⟨noValueMsg none, by rw [hk]⟩
          · exact ⟨e, by rw [hk]⟩

end LinuxTry
